import Mathlib

/-!
Verification development for the Intern-stellar job-discovery pipeline
(`src/models.py`, `src/scoring/engine.py`, `src/utils/dedup.py`,
`src/utils/date_filter.py`, `src/main.py`).

Modelling conventions:
* Python floats are modelled by `ℚ`; Python ints by `ℤ` (or `ℕ` for counts
  that are never negative in the source).
* `datetime` values are modelled as rational day counts; `timedelta.days`
  is the floor of the difference.
* The sentence-transformers embedding is external; the cosine-similarity
  value it produces is passed to the scorer as an explicit parameter.
  By Cauchy-Schwarz a cosine similarity lies in `[-1, 1]`.
* Python's `in` on strings is a substring test, modelled by `strContains`;
  `str.lower` is modelled by `pyLower`.
* Python's stable `list.sort(key=..., reverse=True)` is modelled by
  `List.insertionSort` with a greater-or-equal comparison, which is a
  stable sort with the same (unique) output.
-/

/-- Company classification for scoring (`models.py`, `CompanyType`). -/
inductive CompanyType where
  | startup
  | midsize
  | enterprise
  | consulting
  | unknown
deriving DecidableEq

/-- Required experience level (`models.py`, `ExperienceLevel`). -/
inductive ExperienceLevel where
  | intern
  | junior
  | mid
  | senior
  | lead
  | unknown
deriving DecidableEq

/-- Company information enriched from web search (`models.py`, `CompanyEnrichment`). -/
structure CompanyEnrichment where
  employee_count : Option ℤ := none
  funding_stage : Option String := none
  is_ai_company : Bool := false
  recent_news : List String := []
  tech_stack : List String := []
  company_description : Option String := none
  glassdoor_rating : Option ℚ := none
  verified_remote_policy : Option String := none
deriving DecidableEq

/-- Structured flags extracted from the job description (`models.py`, `ExtractedFlags`).
Field defaults mirror the Pydantic defaults. -/
structure ExtractedFlags where
  has_llm : Bool := false
  has_rag : Bool := false
  has_agents : Bool := false
  has_langchain : Bool := false
  has_langgraph : Bool := false
  has_fastapi : Bool := false
  has_aws : Bool := false
  has_voice_ai : Bool := false
  has_backend : Bool := false
  company_type : CompanyType := CompanyType.unknown
  is_ai_native : Bool := false
  experience_level : ExperienceLevel := ExperienceLevel.unknown
  requires_phd : Bool := false
  requires_publications : Bool := false
  years_required : Option ℤ := none
  research_heavy : Bool := false
  cv_heavy : Bool := false
  is_unpaid : Bool := false
  is_onsite_only : Bool := false
deriving DecidableEq

/-- The all-default `ExtractedFlags()` value substituted by the scorer when a
job has no flags. -/
def defaultFlags : ExtractedFlags := {}

/-- Detailed breakdown of how a job was scored (`models.py`, `ScoreBreakdown`). -/
structure ScoreBreakdown where
  similarity : ℚ := 0
  skill_match : ℚ := 0
  experience_fit : ℚ := 0
  company_signal : ℚ := 0
  penalties : ℚ := 0
deriving DecidableEq

/-- The `total` property of `ScoreBreakdown`: sum of the five components. -/
def ScoreBreakdown.total (b : ScoreBreakdown) : ℚ :=
  b.similarity + b.skill_match + b.experience_fit + b.company_signal + b.penalties

/-- Normalized job object (`models.py`, `Job`). Field defaults mirror the
Pydantic defaults. -/
structure Job where
  title : String
  company : String
  url : String
  source : String
  location : String := "Unknown"
  remote : Bool := false
  hybrid : Bool := false
  paid : Bool := true
  salary_min : Option ℤ := none
  salary_max : Option ℤ := none
  salary_currency : String := "USD"
  description : String := ""
  requirements : List String := []
  extracted_flags : Option ExtractedFlags := none
  company_enrichment : Option CompanyEnrichment := none
  score : Option ℚ := none
  score_breakdown : Option ScoreBreakdown := none
  why_matched : List String := []
  job_id : Option String := none
deriving DecidableEq

/-- Boolean test that `needle` starts `haystack` (character lists). -/
def charsStart : List Char → List Char → Bool
  | [], _ => true
  | _ :: _, [] => false
  | a :: as, b :: bs => a == b && charsStart as bs

/-- Boolean substring test on character lists. -/
def charsContains (needle : List Char) : List Char → Bool
  | [] => needle.isEmpty
  | c :: rest => charsStart needle (c :: rest) || charsContains needle rest

/-- Python's `needle in haystack` substring test. -/
def strContains (haystack needle : String) : Bool :=
  charsContains needle.data haystack.data

/-- Python's `str.lower()` (ASCII case folding). -/
def pyLower (s : String) : String :=
  String.mk (s.data.map Char.toLower)

/-- Rounding to two decimal places, modelling Python's `round(x, 2)`
in `compute_semantic_similarity`. (Python rounds floats half-to-even;
the tie-breaking direction is irrelevant to every claim here, only
monotonicity and fixed points at multiples of 1/100 are used.) -/
def round2 (x : ℚ) : ℚ :=
  ((round (100 * x) : ℤ) : ℚ) / 100

/-- Scorer component 1 (`engine.py`, `compute_semantic_similarity`).
The embedding model is external: the cosine similarity between the
candidate embedding and the job embedding is taken as the parameter
`cos_sim`. The source clamps negatives to zero, scales to `[0, 40]`
and rounds to two decimals. -/
def compute_semantic_similarity (cos_sim : ℚ) : ℚ :=
  round2 (max 0 cos_sim * 40)

/-- Scorer component 2 (`engine.py`, `compute_skill_match`): additive
points per flag, capped at 25. -/
def compute_skill_match (flags : ExtractedFlags) : ℚ × List String :=
  let acc0 : ℚ × List String := (0, [])
  let acc1 := if flags.has_llm then (acc0.1 + 7, acc0.2 ++ ["LLM experience"]) else acc0
  let acc2 := if flags.has_rag then (acc1.1 + 6, acc1.2 ++ ["RAG systems"]) else acc1
  let acc3 := if flags.has_agents then (acc2.1 + 6, acc2.2 ++ ["Agentic workflows"]) else acc2
  let acc4 := if flags.has_langchain || flags.has_langgraph then
      (acc3.1 + 4, acc3.2 ++ ["LangChain/LangGraph"]) else acc3
  let acc5 := if flags.has_voice_ai then (acc4.1 + 4, acc4.2 ++ ["Voice AI experience"]) else acc4
  let acc6 := if flags.has_fastapi then (acc5.1 + 2, acc5.2 ++ ["FastAPI"]) else acc5
  let acc7 := if flags.has_aws then (acc6.1 + 2, acc6.2 ++ ["AWS"]) else acc6
  (min acc7.1 25, acc7.2)

/-- Scorer component 3 (`engine.py`, `compute_experience_fit`): level-derived
score, then overridden/clamped by the required-years bands. -/
def compute_experience_fit (flags : ExtractedFlags) : ℚ × List String :=
  let base : ℚ × List String :=
    match flags.experience_level with
    | ExperienceLevel.intern => (15, ["Intern-level role (perfect fit)"])
    | ExperienceLevel.junior => (15, ["Junior-level role (perfect fit)"])
    | ExperienceLevel.unknown => (10, ["Experience level not specified"])
    | ExperienceLevel.mid => (5, ["Mid-level role (stretch)"])
    | ExperienceLevel.senior => (0, ["Senior role (mismatch)"])
    | ExperienceLevel.lead => (0, ["Senior role (mismatch)"])
  let score :=
    match flags.years_required with
    | none => base.1
    | some y => if y ≤ 2 then max base.1 12 else if y ≤ 4 then min base.1 7 else min base.1 2
  (score, base.2)

/-- Scorer component 4 (`engine.py`, `compute_company_signal`): prefers
enrichment data, falls back to flag-derived company type; capped at 10.
The `n ≠ 0`, nonempty-string and nonzero-rating guards mirror Python's
truthiness tests on the optional enrichment fields. -/
def compute_company_signal (flags : ExtractedFlags) (enrichment : Option CompanyEnrichment) :
    ℚ × List String :=
  match enrichment with
  | some e =>
    let acc0 : ℚ × List String :=
      match e.employee_count with
      | some n =>
        if n ≠ 0 then
          if n < 200 then (10, ["Startup (" ++ toString n ++ " employees)"])
          else if n < 2000 then (7, ["Mid-size (" ++ toString n ++ " employees)"])
          else (4, ["Enterprise (" ++ toString n ++ "+ employees)"])
        else (0, [])
      | none => (0, [])
    let acc1 := if e.is_ai_company then
        (min (acc0.1 + 3) 10, acc0.2 ++ ["AI-native company (verified)"]) else acc0
    let acc2 :=
      match e.funding_stage with
      | some fs =>
        if fs ≠ "" ∧ (pyLower fs = "seed" ∨ pyLower fs = "series a" ∨ pyLower fs = "series b") then
          (min (acc1.1 + 1) 10, acc1.2 ++ [fs ++ " stage"])
        else acc1
      | none => acc1
    let acc3 :=
      match e.glassdoor_rating with
      | some r =>
        if r ≠ 0 ∧ 4 ≤ r then
          (min (acc2.1 + 1) 10, acc2.2 ++ ["High Glassdoor rating (" ++ toString r ++ ")"])
        else acc2
      | none => acc2
    acc3
  | none =>
    let base : ℚ × List String :=
      match flags.company_type with
      | CompanyType.startup => (10, ["AI-native startup"])
      | CompanyType.midsize => (7, ["Product-focused mid-size company"])
      | CompanyType.enterprise => (4, ["Enterprise company"])
      | CompanyType.consulting => (2, ["Consulting/services"])
      | CompanyType.unknown => (5, ["Unknown company type"])
    if flags.is_ai_native then
      if strContains (String.intercalate " " base.2) "AI-native" then
        (min (base.1 + 2) 10, base.2)
      else
        (min (base.1 + 2) 10, base.2 ++ ["AI-native company"])
    else base

/-- Scorer component 5 (`engine.py`, `compute_penalties`): deltas summed
then clamped to `[-10, 10]`. -/
def compute_penalties (job : Job) (flags : ExtractedFlags) : ℚ × List String :=
  let acc0 : ℚ × List String := (0, [])
  let acc1 := if flags.research_heavy then (acc0.1 - 5, acc0.2 ++ ["Research-heavy focus"]) else acc0
  let acc2 := if flags.cv_heavy then (acc1.1 - 4, acc1.2 ++ ["CV-heavy role"]) else acc1
  let acc3 := if flags.requires_phd then (acc2.1 - 8, acc2.2 ++ ["PhD required"]) else acc2
  let acc4 := if flags.requires_publications then
      (acc3.1 - 5, acc3.2 ++ ["Publications required"]) else acc3
  let acc5 := if flags.is_onsite_only then (acc4.1 - 3, acc4.2 ++ ["On-site only"]) else acc4
  let title_lower := pyLower job.title
  let acc6 := if ["fullstack", "full stack", "full-stack"].any (fun k => strContains title_lower k)
    then (acc5.1 - 5, acc5.2 ++ ["Fullstack role (not AI-focused)"]) else acc5
  let acc7 := if ["mobile", "react native", "ios", "android", "flutter"].any
      (fun k => strContains title_lower k)
    then (acc6.1 - 6, acc6.2 ++ ["Mobile role (not AI-focused)"]) else acc6
  let acc8 := if ["devops", "sre", "infrastructure", "platform engineer"].any
      (fun k => strContains title_lower k)
    then (acc7.1 - 5, acc7.2 ++ ["DevOps role (not AI-focused)"]) else acc7
  let acc9 := if ["frontend", "front-end", "ui engineer"].any (fun k => strContains title_lower k)
    then (acc8.1 - 6, acc8.2 ++ ["Frontend role (not AI-focused)"]) else acc8
  let acc10 := if job.remote then (acc9.1 + 3, acc9.2 ++ ["Remote-friendly"]) else acc9
  (max (-10) (min 10 acc10.1), acc10.2)

/-- The scorer (`engine.py`, `score_job`): substitutes default flags when
absent, computes the five components, assembles the breakdown, total score
and the `why_matched` reasons (skill top-2, experience-fit reason when its
score is at least 10, company reason when its score is at least 7, cut to
three). `cos_sim` is the externally computed cosine similarity for this job. -/
def score_job (cos_sim : ℚ) (job : Job) : Job :=
  let flags := job.extracted_flags.getD defaultFlags
  let similarity_score := compute_semantic_similarity cos_sim
  let skill := compute_skill_match flags
  let why1 := skill.2.take 2
  let exp := compute_experience_fit flags
  let why2 := why1 ++ (if 10 ≤ exp.1 then exp.2.take 1 else [])
  let company := compute_company_signal flags job.company_enrichment
  let why3 := why2 ++ (if 7 ≤ company.1 then company.2.take 1 else [])
  let penalty := compute_penalties job flags
  let breakdown : ScoreBreakdown :=
    { similarity := similarity_score
      skill_match := skill.1
      experience_fit := exp.1
      company_signal := company.1
      penalties := penalty.1 }
  { job with
      extracted_flags := some flags
      score_breakdown := some breakdown
      score := some breakdown.total
      why_matched := why3.take 3 }

/-- The fixed AI/ML keyword vocabulary of the hard filter (`engine.py`,
`apply_hard_filters`). -/
def ai_keywords : List String :=
  ["llm", "large language model", "gpt", "genai", "generative ai",
   "rag", "retrieval augmented", "agentic", "agent", "langchain",
   "machine learning", "ml engineer", "ai engineer", "applied ai",
   "transformer", "embedding", "prompt engineering", "fine-tuning",
   "vector database", "nlp", "natural language"]

/-- Whether an AI/ML keyword occurs in the lower-cased title+description
(the keyword check inside `apply_hard_filters`). -/
def job_has_ai_keyword (job : Job) : Bool :=
  ai_keywords.any (fun k => strContains (pyLower (job.title ++ " " ++ job.description)) k)

/-- The hard filter (`engine.py`, `apply_hard_filters`): `true` means the
job is kept. -/
def apply_hard_filters (job : Job) : Bool :=
  match job.extracted_flags with
  | none => true
  | some flags =>
    if flags.is_unpaid then false
    else if flags.requires_phd then false
    else if flags.experience_level = ExperienceLevel.senior ∨
            flags.experience_level = ExperienceLevel.lead then false
    else
      let has_ai_flags := flags.has_llm || flags.has_rag || flags.has_agents ||
        flags.has_langchain || flags.has_langgraph
      if !job_has_ai_keyword job && !has_ai_flags then false
      else true

/-- The sort key of the ranker: Python's `j.score or 0`. -/
def jobKey (j : Job) : ℚ :=
  j.score.getD 0

/-- The ranker's comparison: descending by `jobKey`. -/
def jobGE (a b : Job) : Prop :=
  jobKey b ≤ jobKey a

instance : DecidableRel jobGE :=
  fun a b => inferInstanceAs (Decidable (jobKey b ≤ jobKey a))

instance : IsTotal Job jobGE :=
  ⟨fun a b => le_total (jobKey b) (jobKey a)⟩

instance : IsTrans Job jobGE :=
  ⟨fun _ _ _ h1 h2 => le_trans h2 h1⟩

/-- The ranker (`engine.py`, `rank_jobs`): filter to scored jobs at or above
`min_score` (`None` scores are excluded), stable-sort descending by score
(Python's stable `list.sort` is modelled by the stable `insertionSort`),
truncate to `top_n`. Defaults in the source: `min_score=60`, `top_n=20`. -/
def rank_jobs (jobs : List Job) (min_score : ℚ) (top_n : ℕ) : List Job :=
  let qualified := jobs.filter (fun j =>
    match j.score with
    | none => false
    | some s => decide (min_score ≤ s))
  let sorted := qualified.insertionSort jobGE
  sorted.take top_n

/-- Modelled from the spec: section 7 demands that a null score reaching the
Ranker be "surfaced loudly (fail the run) rather than silently coerced".
This fail-fast variant follows those words, for comparison with the
`rank_jobs` translated from the source. -/
def rank_jobs_failfast (jobs : List Job) (min_score : ℚ) (top_n : ℕ) : Option (List Job) :=
  if jobs.any (fun j => j.score.isNone) then none
  else some (rank_jobs jobs min_score top_n)

/-- Deduplication identity (`models.py`, `Job.generate_job_id`): the source
hashes `f"{url}|{title}|{company}"` with md5 and keeps 16 hex digits; the
hash is a pure deterministic function of that content string, so identity
is modelled by the content string itself (the claims rely only on
determinism in the triple, never on hash collisions). -/
def generate_job_id (job : Job) : String :=
  job.url ++ "|" ++ job.title ++ "|" ++ job.company

/-- The id under which `filter_new_jobs` processes a job: Python's
`if not job.job_id: job.job_id = job.generate_job_id()` treats both `None`
and the empty string as unset. -/
def effective_id (job : Job) : String :=
  match job.job_id with
  | none => generate_job_id job
  | some s => if s = "" then generate_job_id job else s

/-- The deduplication filter (`dedup.py`, `filter_new_jobs`), with the
persisted seen-id set passed and returned explicitly in place of the
load/save calls. Returns the kept jobs (with `job_id` set) and the
updated seen set. -/
def filter_new_jobs : List Job → List String → List Job × List String
  | [], seen => ([], seen)
  | job :: rest, seen =>
    let jid := effective_id job
    let kept : Job := { job with job_id := some jid }
    if jid ∈ seen then filter_new_jobs rest seen
    else
      let r := filter_new_jobs rest (seen ++ [jid])
      (kept :: r.1, r.2)

/-- Maximum age in days for a job to be considered fresh
(`date_filter.py`, `MAX_JOB_AGE_DAYS`). -/
def MAX_JOB_AGE_DAYS : ℤ := 45

/-- The age check (`date_filter.py`, `is_job_too_old`): dates are rational
day counts, `now` is passed explicitly for `datetime.now()`, and
`(now - posted).days` is the floor of the difference. -/
def is_job_too_old (job_posted_date : Option ℚ) (max_age_days : ℤ) (now : ℚ) : Bool :=
  match job_posted_date with
  | none => false
  | some d => decide (max_age_days < ⌊now - d⌋)

/-- The per-year staleness patterns of `is_likely_stale`. -/
def year_patterns (y : ℕ) : List String :=
  ["summer " ++ toString y, "fall " ++ toString y, "spring " ++ toString y,
   "winter " ++ toString y, toString y ++ " intern", "intern " ++ toString y,
   "class of " ++ toString y, "cohort " ++ toString y]

/-- The closure phrases of `is_likely_stale`. -/
def closed_keywords : List String :=
  ["position filled", "no longer accepting", "this position has been filled",
   "job closed", "application closed", "posting expired", "position closed"]

/-- The staleness heuristic (`date_filter.py`, `is_likely_stale`):
`current_year` is passed explicitly for `datetime.now().year`. The year
scan covers Python's `range(2020, current_year - 1)`, i.e. the years
`2020, ..., current_year - 2`. -/
def is_likely_stale (current_year : ℕ) (title description : String) : Bool :=
  let text := pyLower (title ++ " " ++ description)
  if (List.range' 2020 (current_year - 1 - 2020)).any
      (fun y => (year_patterns y).any (fun p => strContains text p)) then true
  else if closed_keywords.any (fun k => strContains text k) then true
  else false

/-- The freshness decision of the pipeline (`main.py`, `run_pipeline`
step 2.5): a job is kept iff it is neither too old by its detected posted
date nor flagged by the staleness heuristic. -/
def freshness_keep (posted : Option ℚ) (max_age_days : ℤ) (now : ℚ)
    (current_year : ℕ) (title description : String) : Bool :=
  if is_job_too_old posted max_age_days now then false
  else if is_likely_stale current_year title description then false
  else true

/-- Shallow JSON values, for the persisted dedup store file. -/
inductive JsonVal where
  | null
  | bool (b : Bool)
  | num (q : ℚ)
  | str (s : String)
  | arr (elems : List JsonVal)
  | obj (fields : List (String × JsonVal))

/-- Python iteration over a JSON-decoded value, as used by `set(...)`:
lists yield their elements, strings their characters, dicts their keys;
anything else raises `TypeError` (`none`). -/
def pyIter : JsonVal → Option (List JsonVal)
  | JsonVal.arr l => some l
  | JsonVal.str s => some (s.data.map (fun c => JsonVal.str (String.mk [c])))
  | JsonVal.obj fields => some (fields.map (fun kv => JsonVal.str kv.1))
  | _ => none

/-- Loading the persisted seen-id store (`dedup.py`, `load_seen_jobs`).
The file system and `json.load` are modelled by the argument: `none` for a
missing file, `some (.error _)` for unparseable contents, `some (.ok v)`
for a successful parse. The bare `except` returns the empty set whenever
`data.get` (non-dict) or `set(...)` (non-iterable value) would raise. -/
def load_seen_jobs (file : Option (Except String JsonVal)) : List JsonVal :=
  match file with
  | none => []
  | some (Except.error _) => []
  | some (Except.ok v) =>
    match v with
    | JsonVal.obj fields =>
      match pyIter ((List.lookup "seen_ids" fields).getD (JsonVal.arr [])) with
      | none => []
      | some ids => ids
    | _ => []

/-- The breakdown that `score_job` attaches to a job: the five component
scores at the job's (possibly defaulted) flags and enrichment. -/
def job_breakdown (cos_sim : ℚ) (job : Job) : ScoreBreakdown :=
  { similarity := compute_semantic_similarity cos_sim
    skill_match := (compute_skill_match (job.extracted_flags.getD defaultFlags)).1
    experience_fit := (compute_experience_fit (job.extracted_flags.getD defaultFlags)).1
    company_signal := (compute_company_signal (job.extracted_flags.getD defaultFlags)
      job.company_enrichment).1
    penalties := (compute_penalties job (job.extracted_flags.getD defaultFlags)).1 }

/-- A minimal scored record, used in the concrete ranking scenario. -/
def mkScored (t : String) (s : ℚ) : Job :=
  { title := t, company := "c", url := "u", source := "src", score := some s }

/-- The ten scored records of the ranking scenario, with scores
`[95, 40, 95, 10, -5, 60, 60, 99, 0, 30]` in arrival order. -/
def scenF : List Job :=
  [mkScored "j0" 95, mkScored "j1" 40, mkScored "j2" 95, mkScored "j3" 10,
   mkScored "j4" (-5), mkScored "j5" 60, mkScored "j6" 60, mkScored "j7" 99,
   mkScored "j8" 0, mkScored "j9" 30]

/-- A record whose score was never set, reaching the ranker. -/
def nullScoreJob : Job :=
  { title := "Unscored role", company := "c", url := "u", source := "src" }

/-- First of two records sharing the same `(url, title, company)` triple. -/
def dupJobA : Job :=
  { title := "AI Intern", company := "Acme", url := "https://acme.example/ai",
    source := "src", description := "first occurrence" }

/-- Second record with the identical `(url, title, company)` triple but a
different description. -/
def dupJobB : Job :=
  { title := "AI Intern", company := "Acme", url := "https://acme.example/ai",
    source := "src", description := "second occurrence" }

/-- A concrete flagged AI job, used to instantiate hypothesis-bearing
theorems at a particular input. -/
def jobAI : Job :=
  { title := "ML Engineer", company := "Acme", url := "https://acme.example/ml",
    source := "src", remote := true,
    extracted_flags := some { has_llm := true } }


/-- C5: the Freshness Filter's age check discards a record iff its inferred
posted date is strictly older (in whole days, as `timedelta.days` computes)
than the maximum age, whose default is 45 days; a record with no inferred
posted date is never discarded by the age check, and any freshness discard
is caused by the age check or the staleness heuristic, never by mere
absence of date information. -/
theorem age_check_keeps_iff :
    MAX_JOB_AGE_DAYS = 45 ∧
    (∀ max_age_days now, is_job_too_old none max_age_days now = false) ∧
    (∀ d max_age_days now,
      is_job_too_old (some d) max_age_days now = true ↔ max_age_days < ⌊now - d⌋) ∧
    (∀ posted max_age_days now cy title desc,
      freshness_keep posted max_age_days now cy title desc = false ↔
      (is_job_too_old posted max_age_days now = true ∨
       is_likely_stale cy title desc = true)) := by
  refine ⟨rfl, fun _ _ => rfl, fun d m now => ?_, fun posted m now cy t desc => ?_⟩
  · simp [is_job_too_old]
  · unfold freshness_keep
    split_ifs with h1 h2 <;> simp_all

/-- C9: the reasons attached by the scorer are exactly the first two
skill-match reasons, then the experience-fit reason when that component is
at least 10, then the company-signal reason when that component is at
least 7, truncated to the first three. -/
theorem why_matched_priority (cos_sim : ℚ) (job : Job) :
    (score_job cos_sim job).why_matched =
      (((compute_skill_match (job.extracted_flags.getD defaultFlags)).2.take 2 ++
        (if 10 ≤ (compute_experience_fit (job.extracted_flags.getD defaultFlags)).1 then
          (compute_experience_fit (job.extracted_flags.getD defaultFlags)).2.take 1 else []) ++
        (if 7 ≤ (compute_company_signal (job.extracted_flags.getD defaultFlags)
            job.company_enrichment).1 then
          (compute_company_signal (job.extracted_flags.getD defaultFlags)
            job.company_enrichment).2.take 1 else [])).take 3) ∧
    (score_job cos_sim job).why_matched.length ≤ 3 := by
  refine ⟨rfl, ?_⟩
  have h : (score_job cos_sim job).why_matched = List.take 3
      (((compute_skill_match (job.extracted_flags.getD defaultFlags)).2.take 2 ++
        (if 10 ≤ (compute_experience_fit (job.extracted_flags.getD defaultFlags)).1 then
          (compute_experience_fit (job.extracted_flags.getD defaultFlags)).2.take 1 else []) ++
        (if 7 ≤ (compute_company_signal (job.extracted_flags.getD defaultFlags)
            job.company_enrichment).1 then
          (compute_company_signal (job.extracted_flags.getD defaultFlags)
            job.company_enrichment).2.take 1 else []))) := rfl
  rw [h]
  exact List.length_take_le _ _

/-- C10: the scorer mutates only `score`, `score_breakdown`, `why_matched`
and `extracted_flags`, the last only by substituting the all-default flag
set when none was present; every other field of the record is unchanged. -/
theorem score_job_frame (cos_sim : ℚ) (job : Job) :
    (score_job cos_sim job).title = job.title ∧
    (score_job cos_sim job).company = job.company ∧
    (score_job cos_sim job).url = job.url ∧
    (score_job cos_sim job).source = job.source ∧
    (score_job cos_sim job).location = job.location ∧
    (score_job cos_sim job).remote = job.remote ∧
    (score_job cos_sim job).hybrid = job.hybrid ∧
    (score_job cos_sim job).paid = job.paid ∧
    (score_job cos_sim job).salary_min = job.salary_min ∧
    (score_job cos_sim job).salary_max = job.salary_max ∧
    (score_job cos_sim job).salary_currency = job.salary_currency ∧
    (score_job cos_sim job).description = job.description ∧
    (score_job cos_sim job).requirements = job.requirements ∧
    (score_job cos_sim job).company_enrichment = job.company_enrichment ∧
    (score_job cos_sim job).job_id = job.job_id ∧
    (score_job cos_sim job).extracted_flags = some (job.extracted_flags.getD defaultFlags) :=
  ⟨rfl, rfl, rfl, rfl, rfl, rfl, rfl, rfl, rfl, rfl, rfl, rfl, rfl, rfl, rfl, rfl⟩

/-- C7 counterexample: a record with a null score reaching the ranker does
not fail the run; the source's `rank_jobs` silently drops the record and
returns normally, where the spec's fail-fast reading (modelled by
`rank_jobs_failfast`) would have signalled an error. -/
theorem ranker_does_not_fail_on_null_score :
    rank_jobs [nullScoreJob] 60 20 = [] ∧
    rank_jobs_failfast [nullScoreJob] 60 20 = none :=
  ⟨rfl, rfl⟩

/-- C7 amended: a record with a null score reaching the ranker is silently
excluded from the output (not coerced to a zero score), and the run
completes normally: the output never contains a null-score record, and
removing a null-score record from the input leaves the output unchanged. -/
theorem ranker_null_score_excluded :
    (∀ jobs m n (j : Job), j ∈ rank_jobs jobs m n → j.score ≠ none) ∧
    (∀ (j : Job) jobs m n, j.score = none →
      rank_jobs (j :: jobs) m n = rank_jobs jobs m n) := by
  constructor
  · intro jobs m n j hj
    have h1 : j ∈ (jobs.filter (fun j =>
        match j.score with
        | none => false
        | some s => decide (m ≤ s))).insertionSort jobGE := List.mem_of_mem_take hj
    have h2 := List.of_mem_filter ((List.mem_insertionSort jobGE).mp h1)
    cases hs : j.score with
    | none => rw [hs] at h2; simp at h2
    | some s => simp [hs]
  · intro j jobs m n hj
    unfold rank_jobs
    rw [List.filter_cons_of_neg (by rw [hj]; simp)]

/-- C7 witness for the amended theorem, at a concrete input. -/
theorem ranker_null_score_excluded_witness :
    rank_jobs (nullScoreJob :: [mkScored "kept" 70]) 60 20 =
      rank_jobs [mkScored "kept" 70] 60 20 :=
  ranker_null_score_excluded.2 nullScoreJob [mkScored "kept" 70] 60 20 rfl

/-- C8 counterexample: a persisted store whose `seen_ids` value is the
JSON string `"ab"` is JSON without the expected shape, yet `load_seen_jobs`
returns the two-element set of its characters, not the empty set (Python's
`set("ab")` is `{"a", "b"}`). -/
theorem load_seen_nonempty_on_string_value :
    load_seen_jobs (some (Except.ok (JsonVal.obj [("seen_ids", JsonVal.str "ab")]))) =
      [JsonVal.str "a", JsonVal.str "b"] ∧
    load_seen_jobs (some (Except.ok (JsonVal.obj [("seen_ids", JsonVal.str "ab")]))) ≠ [] := by
  refine ⟨rfl, ?_⟩
  show ([JsonVal.str "a", JsonVal.str "b"] : List JsonVal) ≠ []
  exact List.cons_ne_nil _ _

/-- C8 amended: loading the store returns the empty set and raises no error
when the file is missing, when its contents are unparseable, when the JSON
is not an object, when the object lacks the `seen_ids` key, or when the
key's value is not iterable; but an iterable non-list value is not
defaulted to empty (a string value yields its character set, see the
counterexample). -/
theorem load_seen_defaults_amended :
    load_seen_jobs none = [] ∧
    (∀ msg, load_seen_jobs (some (Except.error msg)) = []) ∧
    (∀ v, (∀ fields, v ≠ JsonVal.obj fields) →
      load_seen_jobs (some (Except.ok v)) = []) ∧
    (∀ fields, List.lookup "seen_ids" fields = none →
      load_seen_jobs (some (Except.ok (JsonVal.obj fields))) = []) ∧
    (∀ fields v, List.lookup "seen_ids" fields = some v → pyIter v = none →
      load_seen_jobs (some (Except.ok (JsonVal.obj fields))) = []) := by
  refine ⟨rfl, fun _ => rfl, fun v hv => ?_, fun fields hf => ?_, fun fields v hf hv => ?_⟩
  · cases v with
    | obj fields => exact absurd rfl (hv fields)
    | null => rfl
    | bool b => rfl
    | num q => rfl
    | str s => rfl
    | arr l => rfl
  · simp [load_seen_jobs, hf, pyIter]
  · simp [load_seen_jobs, hf, hv]

/-- C8 witness for the amended theorem, at concrete inputs. -/
theorem load_seen_defaults_amended_witness :
    load_seen_jobs (some (Except.ok (JsonVal.num 3))) = [] ∧
    load_seen_jobs (some (Except.ok (JsonVal.obj []))) = [] ∧
    load_seen_jobs (some (Except.ok (JsonVal.obj [("seen_ids", JsonVal.null)]))) = [] :=
  ⟨load_seen_defaults_amended.2.2.1 (JsonVal.num 3) (fun _ h => JsonVal.noConfusion h),
   load_seen_defaults_amended.2.2.2.1 [] rfl,
   load_seen_defaults_amended.2.2.2.2 [("seen_ids", JsonVal.null)] JsonVal.null rfl rfl⟩

/-- C6 counterexample: with the current year 2026, the text
"Summer 2019 internship" contains a year reference more than one year
behind the current year combined with a seasonal keyword, yet
`is_likely_stale` returns `false`: the source only scans the years
`2020, ..., current_year - 2`, so pre-2020 cohort references escape. -/
theorem stale_misses_pre2020_year :
    strContains (pyLower ("AI intern" ++ " " ++ "Summer 2019 internship")) "summer 2019" = true ∧
    is_likely_stale 2026 "AI intern" "Summer 2019 internship" = false :=
  ⟨rfl, rfl⟩

/-- C6 amended: a year reference between 2020 and `current_year - 2`
(rather than any year more than one year behind the current year) combined
with a seasonal/cohort keyword makes `is_likely_stale` return true, as does
any explicit closure phrase; either way the record is discarded by the
freshness step regardless of any inferred posted date. -/
theorem stale_detection_amended :
    (∀ cy y title desc, 2020 ≤ y → y + 2 ≤ cy →
      (year_patterns y).any (fun p => strContains (pyLower (title ++ " " ++ desc)) p) = true →
      is_likely_stale cy title desc = true) ∧
    (∀ cy title desc,
      closed_keywords.any (fun k => strContains (pyLower (title ++ " " ++ desc)) k) = true →
      is_likely_stale cy title desc = true) ∧
    (∀ posted max_age_days now cy title desc, is_likely_stale cy title desc = true →
      freshness_keep posted max_age_days now cy title desc = false) := by
  refine ⟨fun cy y title desc hy1 hy2 hp => ?_, fun cy title desc hk => ?_,
    fun posted m now cy title desc hs => ?_⟩
  · unfold is_likely_stale
    rw [if_pos]
    exact List.any_eq_true.mpr ⟨y, List.mem_range'.mpr ⟨y - 2020, by omega, by omega⟩, hp⟩
  · simp [is_likely_stale, hk]
  · unfold freshness_keep
    split_ifs <;> simp_all

/-- C6 witness for the amended theorem, at the spec's own scenario
("Summer 2023 internship" with current year 2026) and a closure phrase. -/
theorem stale_detection_amended_witness :
    is_likely_stale 2026 "AI intern" "Summer 2023 internship" = true ∧
    is_likely_stale 2026 "Role" "This position has been filled" = true ∧
    freshness_keep none 45 0 2026 "AI intern" "Summer 2023 internship" = false :=
  ⟨stale_detection_amended.1 2026 2023 "AI intern" "Summer 2023 internship"
      (by norm_num) (by norm_num) (by decide),
   stale_detection_amended.2.1 2026 "Role" "This position has been filled" (by decide),
   stale_detection_amended.2.2 none 45 0 2026 "AI intern" "Summer 2023 internship"
      (stale_detection_amended.1 2026 2023 "AI intern" "Summer 2023 internship"
        (by norm_num) (by norm_num) (by decide))⟩

/-- C2: with flags present, the hard filter keeps a record iff it is not
flagged unpaid, does not require a doctorate, is neither senior nor lead,
and either an AI/ML keyword occurs in title+description or one of the
domain flags (LLM/RAG/agents/langchain/langgraph) is set; with no flags the
record is always kept. -/
theorem hard_filter_keeps_iff :
    (∀ job : Job, job.extracted_flags = none → apply_hard_filters job = true) ∧
    (∀ (job : Job) (f : ExtractedFlags), job.extracted_flags = some f →
      (apply_hard_filters job = true ↔
        (f.is_unpaid = false ∧ f.requires_phd = false ∧
         f.experience_level ≠ ExperienceLevel.senior ∧
         f.experience_level ≠ ExperienceLevel.lead ∧
         (job_has_ai_keyword job = true ∨
          (f.has_llm || f.has_rag || f.has_agents || f.has_langchain ||
            f.has_langgraph) = true)))) := by
  constructor
  · intro job h
    simp [apply_hard_filters, h]
  · intro job f h
    simp only [apply_hard_filters, h]
    split_ifs with h1 h2 h3 h4
    · simp [h1]
    · simp [h2]
    · constructor
      · intro hfalse; exact absurd hfalse (by simp)
      · rintro ⟨-, -, hs, hl, -⟩
        rcases h3 with h3 | h3
        · exact absurd h3 hs
        · exact absurd h3 hl
    · constructor
      · intro hfalse; exact absurd hfalse (by simp)
      · rintro ⟨-, -, -, -, hai⟩
        rw [Bool.and_eq_true, Bool.not_eq_true', Bool.not_eq_true'] at h4
        rcases hai with hai | hai
        · exact absurd hai (by simp [h4.1])
        · exact absurd hai (by simp [h4.2])
    · simp only [true_iff]
      push_neg at h3
      refine ⟨by simpa using h1, by simpa using h2, h3.1, h3.2, ?_⟩
      by_cases hk : job_has_ai_keyword job = true
      · exact Or.inl hk
      · right
        by_cases hf : (f.has_llm || f.has_rag || f.has_agents || f.has_langchain ||
            f.has_langgraph) = true
        · exact hf
        · exfalso
          apply h4
          simp only [Bool.not_eq_true] at hk hf
          rw [hk, hf]
          rfl

/-- C2 witness: the characterization applied to a concrete flagged AI job,
whose hypotheses are discharged at that input. -/
theorem hard_filter_keeps_iff_witness :
    apply_hard_filters jobAI = true :=
  (hard_filter_keeps_iff.2 jobAI { has_llm := true } rfl).mpr
    ⟨rfl, rfl, by decide, by decide, Or.inr (by decide)⟩

/-- Unfolding equation of `filter_new_jobs` on a cons cell. -/
lemma filter_new_cons (job : Job) (rest : List Job) (seen : List String) :
    filter_new_jobs (job :: rest) seen =
      if effective_id job ∈ seen then filter_new_jobs rest seen
      else (({ job with job_id := some (effective_id job) } : Job) ::
              (filter_new_jobs rest (seen ++ [effective_id job])).1,
            (filter_new_jobs rest (seen ++ [effective_id job])).2) := rfl

/-- The seen set only grows across a `filter_new_jobs` run. -/
lemma filter_new_seen_mono (jobs : List Job) :
    ∀ (seen : List String) (s : String), s ∈ seen → s ∈ (filter_new_jobs jobs seen).2 := by
  induction jobs with
  | nil => intro seen s hs; simpa using hs
  | cons job rest ih =>
    intro seen s hs
    rw [filter_new_cons]
    split_ifs with h
    · exact ih seen s hs
    · exact ih (seen ++ [effective_id job]) s (List.mem_append_left _ hs)

/-- After a `filter_new_jobs` run every input job's id is in the returned
seen set, kept or not. -/
lemma filter_new_ids_seen (jobs : List Job) :
    ∀ (seen : List String) (j : Job), j ∈ jobs →
      effective_id j ∈ (filter_new_jobs jobs seen).2 := by
  induction jobs with
  | nil => intro seen j hj; simp at hj
  | cons job rest ih =>
    intro seen j hj
    rw [filter_new_cons]
    rcases List.mem_cons.mp hj with rfl | hj'
    · split_ifs with h
      · exact filter_new_seen_mono rest seen _ h
      · exact filter_new_seen_mono rest _ _ (by simp)
    · split_ifs with h
      · exact ih seen j hj'
      · exact ih _ j hj'

/-- If every input id is already seen, `filter_new_jobs` keeps nothing. -/
lemma filter_new_empty_of_seen (jobs : List Job) :
    ∀ seen : List String, (∀ j ∈ jobs, effective_id j ∈ seen) →
      (filter_new_jobs jobs seen).1 = [] := by
  induction jobs with
  | nil => intro seen _; rfl
  | cons job rest ih =>
    intro seen hall
    rw [filter_new_cons]
    rw [if_pos (hall job (by simp))]
    exact ih seen (fun j hj => hall j (by simp [hj]))

/-- Every kept job carries an id that was not previously seen, and the kept
ids are pairwise distinct. -/
lemma filter_new_out_fresh (jobs : List Job) :
    ∀ seen : List String,
      (∀ j ∈ (filter_new_jobs jobs seen).1, ∃ s, j.job_id = some s ∧ s ∉ seen) ∧
      ((filter_new_jobs jobs seen).1.map (fun j => j.job_id)).Nodup := by
  induction jobs with
  | nil =>
    intro seen
    exact ⟨fun j hj => by simp [filter_new_jobs] at hj, by simp [filter_new_jobs]⟩
  | cons job rest ih =>
    intro seen
    rw [filter_new_cons]
    split_ifs with h
    · exact ih seen
    · constructor
      · intro j hj
        rcases List.mem_cons.mp hj with rfl | hj'
        · exact ⟨effective_id job, rfl, h⟩
        · obtain ⟨s, hs1, hs2⟩ := (ih (seen ++ [effective_id job])).1 j hj'
          exact ⟨s, hs1, fun hmem => hs2 (List.mem_append_left _ hmem)⟩
      · rw [List.map_cons, List.nodup_cons]
        refine ⟨?_, (ih _).2⟩
        intro hmem
        rcases List.mem_map.mp hmem with ⟨j, hj, hjid⟩
        obtain ⟨s, hs1, hs2⟩ := (ih (seen ++ [effective_id job])).1 j hj
        rw [hs1] at hjid
        apply hs2
        have : s = effective_id job := by simpa using hjid
        rw [this]
        exact List.mem_append_right _ (by simp)

/-- C4: running the dedup filter a second time on the identical batch, with
the seen set returned by the first run, keeps nothing; within a single run
no two kept records share an id; and for two records with the identical
`(url, title, company)` triple the generated ids coincide and only the
first occurrence is kept. -/
theorem dedup_idempotent_and_first_kept :
    (∀ (jobs : List Job) (seen : List String),
      (filter_new_jobs jobs (filter_new_jobs jobs seen).2).1 = []) ∧
    (∀ (jobs : List Job) (seen : List String),
      ((filter_new_jobs jobs seen).1.map (fun j => j.job_id)).Nodup) ∧
    generate_job_id dupJobA = generate_job_id dupJobB ∧
    (filter_new_jobs [dupJobA, dupJobB] []).1 =
      [{ dupJobA with job_id := some (generate_job_id dupJobA) }] := by
  refine ⟨?_, ?_, rfl, rfl⟩
  · intro jobs seen
    exact filter_new_empty_of_seen jobs _ (fun j hj => filter_new_ids_seen jobs seen j hj)
  · intro jobs seen
    exact (filter_new_out_fresh jobs seen).2

/-- Two-decimal rounding is monotone. -/
lemma round2_mono {x y : ℚ} (h : x ≤ y) : round2 x ≤ round2 y := by
  unfold round2
  have hr : round (100 * x) ≤ round (100 * y) := by
    rw [round_eq, round_eq]
    exact Int.floor_le_floor (by linarith)
  have hc : ((round (100 * x) : ℤ) : ℚ) ≤ ((round (100 * y) : ℤ) : ℚ) :=
    Int.cast_le.mpr hr
  linarith

/-- Zero is a fixed point of two-decimal rounding. -/
lemma round2_zero : round2 0 = 0 := by
  unfold round2
  rw [show (100 * (0:ℚ)) = ((0:ℤ):ℚ) by norm_num, round_intCast]
  norm_num

/-- Forty is a fixed point of two-decimal rounding. -/
lemma round2_forty : round2 40 = 40 := by
  unfold round2
  rw [show (100 * (40:ℚ)) = ((4000:ℤ):ℚ) by norm_num, round_intCast]
  norm_num

/-- The similarity component lies in `[0, 40]` whenever the cosine input is
at most 1. -/
lemma similarity_bounds {c : ℚ} (h2 : c ≤ 1) :
    0 ≤ compute_semantic_similarity c ∧ compute_semantic_similarity c ≤ 40 := by
  unfold compute_semantic_similarity
  constructor
  · have h0 : (0:ℚ) ≤ max 0 c * 40 := mul_nonneg (le_max_left _ _) (by norm_num)
    have := round2_mono h0
    rwa [round2_zero] at this
  · have h1 : max 0 c * 40 ≤ 40 := by
      have hm : max 0 c ≤ 1 := max_le (by norm_num) h2
      calc max 0 c * 40 ≤ 1 * 40 := mul_le_mul_of_nonneg_right hm (by norm_num)
        _ = 40 := by norm_num
    have := round2_mono h1
    rwa [round2_forty] at this

/-- One accumulation step of the form `if c then (p.1 + k, p.2 ++ r) else p`
preserves nonnegativity of the score when the increment is nonnegative. -/
lemma if_acc_nonneg {c : Prop} [Decidable c] {p : ℚ × List String} {k : ℚ} {r : List String}
    (hp : 0 ≤ p.1) (hk : 0 ≤ k) : 0 ≤ (if c then (p.1 + k, p.2 ++ r) else p).1 := by
  split_ifs with h
  · dsimp only
    linarith
  · exact hp

/-- The skill-match component lies in `[0, 25]`. -/
lemma skill_match_bounds (f : ExtractedFlags) :
    0 ≤ (compute_skill_match f).1 ∧ (compute_skill_match f).1 ≤ 25 := by
  constructor
  · show 0 ≤ min _ 25
    refine le_min ?_ (by norm_num)
    exact if_acc_nonneg (if_acc_nonneg (if_acc_nonneg (if_acc_nonneg (if_acc_nonneg
      (if_acc_nonneg (if_acc_nonneg (le_refl 0) (by norm_num)) (by norm_num)) (by norm_num))
      (by norm_num)) (by norm_num)) (by norm_num)) (by norm_num)
  · exact min_le_right _ _

/-- The experience-fit component lies in `[0, 15]`. -/
lemma experience_fit_bounds (f : ExtractedFlags) :
    0 ≤ (compute_experience_fit f).1 ∧ (compute_experience_fit f).1 ≤ 15 := by
  cases hl : f.experience_level <;> cases hy : f.years_required <;>
    simp only [compute_experience_fit, hl, hy] <;>
    (try split_ifs) <;>
    constructor <;>
    norm_num [le_max_iff, max_le_iff, le_min_iff, min_le_iff]

set_option maxHeartbeats 1000000 in
/-- The company-signal component lies in `[0, 10]`. -/
lemma company_signal_bounds (f : ExtractedFlags) (enr : Option CompanyEnrichment) :
    0 ≤ (compute_company_signal f enr).1 ∧ (compute_company_signal f enr).1 ≤ 10 := by
  cases enr with
  | none =>
    cases hct : f.company_type <;> cases hai : f.is_ai_native <;>
      simp only [compute_company_signal, hct, hai] <;> (try split_ifs) <;> constructor <;>
      norm_num [min_def, max_def]
  | some e =>
    cases hec : e.employee_count <;> cases hai : e.is_ai_company <;>
      cases hfs : e.funding_stage <;> cases hgr : e.glassdoor_rating <;>
      simp only [compute_company_signal, hec, hai, hfs, hgr] <;>
      (try split_ifs) <;> constructor <;> dsimp only <;> norm_num [min_def]

/-- The penalties/bonuses component lies in `[-10, 10]`. -/
lemma penalties_bounds (job : Job) (f : ExtractedFlags) :
    -10 ≤ (compute_penalties job f).1 ∧ (compute_penalties job f).1 ≤ 10 := by
  constructor
  · exact le_max_left _ _
  · exact max_le (by norm_num) (min_le_left _ _)

/-- The breakdown attached by `score_job` is `job_breakdown`, and the score
is its total. -/
lemma score_job_breakdown_eq (cos_sim : ℚ) (job : Job) :
    (score_job cos_sim job).score_breakdown = some (job_breakdown cos_sim job) ∧
    (score_job cos_sim job).score = some (job_breakdown cos_sim job).total :=
  ⟨rfl, rfl⟩

/-- C1: for any flags, enrichment and job, and any cosine similarity in
`[-1, 1]`, each score component lies in its band (similarity in `[0, 40]`,
skill match in `[0, 25]`, experience fit in `[0, 15]`, company signal in
`[0, 10]`, penalties in `[-10, 10]`), and consequently the total attached
by the scorer, the sum of the five components, lies in `[-10, 100]`. -/
theorem score_components_bounded (flags : ExtractedFlags) (enr : Option CompanyEnrichment)
    (job : Job) (cos_sim : ℚ) (_hlo : -1 ≤ cos_sim) (hhi : cos_sim ≤ 1) :
    (0 ≤ compute_semantic_similarity cos_sim ∧ compute_semantic_similarity cos_sim ≤ 40) ∧
    (0 ≤ (compute_skill_match flags).1 ∧ (compute_skill_match flags).1 ≤ 25) ∧
    (0 ≤ (compute_experience_fit flags).1 ∧ (compute_experience_fit flags).1 ≤ 15) ∧
    (0 ≤ (compute_company_signal flags enr).1 ∧ (compute_company_signal flags enr).1 ≤ 10) ∧
    (-10 ≤ (compute_penalties job flags).1 ∧ (compute_penalties job flags).1 ≤ 10) ∧
    (∀ b, (score_job cos_sim job).score_breakdown = some b →
      -10 ≤ b.total ∧ b.total ≤ 100) ∧
    (∀ t, (score_job cos_sim job).score = some t → -10 ≤ t ∧ t ≤ 100) := by
  have hsim := similarity_bounds hhi
  have hskill := skill_match_bounds (job.extracted_flags.getD defaultFlags)
  have hexp := experience_fit_bounds (job.extracted_flags.getD defaultFlags)
  have hcomp := company_signal_bounds (job.extracted_flags.getD defaultFlags)
    job.company_enrichment
  have hpen := penalties_bounds job (job.extracted_flags.getD defaultFlags)
  have htotal : -10 ≤ (job_breakdown cos_sim job).total ∧
      (job_breakdown cos_sim job).total ≤ 100 := by
    unfold job_breakdown ScoreBreakdown.total
    dsimp only
    constructor
    · linarith [hsim.1, hskill.1, hexp.1, hcomp.1, hpen.1]
    · linarith [hsim.2, hskill.2, hexp.2, hcomp.2, hpen.2]
  refine ⟨similarity_bounds hhi, skill_match_bounds flags, experience_fit_bounds flags,
    company_signal_bounds flags enr, penalties_bounds job flags, ?_, ?_⟩
  · intro b hb
    rw [(score_job_breakdown_eq cos_sim job).1] at hb
    obtain rfl := (Option.some.injEq _ _).mp hb.symm
    exact htotal
  · intro t ht
    rw [(score_job_breakdown_eq cos_sim job).2] at ht
    obtain rfl := (Option.some.injEq _ _).mp ht.symm
    exact htotal

/-- C1 witness: the bounds at a concrete flag set, enrichment, job and
cosine similarity. -/
theorem score_components_bounded_witness :
    (0 ≤ compute_semantic_similarity (1/2) ∧ compute_semantic_similarity (1/2) ≤ 40) ∧
    (0 ≤ (compute_skill_match { has_llm := true }).1 ∧
      (compute_skill_match { has_llm := true }).1 ≤ 25) :=
  ⟨(score_components_bounded { has_llm := true } none jobAI (1/2)
      (by norm_num) (by norm_num)).1,
   (score_components_bounded { has_llm := true } none jobAI (1/2)
      (by norm_num) (by norm_num)).2.1⟩

/-- A tie-ordered pair that is a sublist of an ordered insertion either was
a sublist of the base list, or begins with the inserted element. -/
lemma pair_sub_orderedInsert (x a b : Job) (hba : jobGE b a) :
    ∀ s : List Job, List.Sublist [a, b] (List.orderedInsert jobGE x s) →
      List.Sublist [a, b] s ∨ (a = x ∧ b ∈ s) := by
  intro s
  induction s with
  | nil =>
    intro h
    have := h.length_le
    simp [List.orderedInsert] at this
  | cons y t ih =>
    intro h
    rw [List.orderedInsert] at h
    by_cases hxy : jobGE x y
    · rw [if_pos hxy] at h
      rcases List.sublist_cons_iff.mp h with h' | ⟨r, hr, hr'⟩
      · exact Or.inl h'
      · obtain ⟨rfl, rfl⟩ : a = x ∧ r = [b] := by
          cases hr
          exact ⟨rfl, rfl⟩
        exact Or.inr ⟨rfl, List.singleton_sublist.mp hr'⟩
    · rw [if_neg hxy] at h
      rcases List.sublist_cons_iff.mp h with h' | ⟨r, hr, hr'⟩
      · rcases ih h' with h'' | ⟨ha, hb⟩
        · exact Or.inl (h''.cons y)
        · exact Or.inr ⟨ha, List.mem_cons_of_mem y hb⟩
      · obtain ⟨rfl, rfl⟩ : a = y ∧ r = [b] := by
          cases hr
          exact ⟨rfl, rfl⟩
        have hbmem := List.singleton_sublist.mp hr'
        rcases (List.mem_orderedInsert jobGE).mp hbmem with rfl | hbt
        · exact absurd hba hxy
        · exact Or.inl (List.cons_sublist_cons.mpr (List.singleton_sublist.mpr hbt))

/-- Stability of the modelled sort: a pair appearing in the sorted output
whose second element also compares at-or-above the first (in particular a
score tie) already appeared in that order in the input. -/
lemma pair_sub_insertionSort (a b : Job) (hba : jobGE b a) :
    ∀ l : List Job, List.Sublist [a, b] (List.insertionSort jobGE l) → List.Sublist [a, b] l := by
  intro l
  induction l with
  | nil => intro h; simp at h
  | cons x t ih =>
    intro h
    rw [List.insertionSort] at h
    rcases pair_sub_orderedInsert x a b hba _ h with h' | ⟨rfl, hb⟩
    · exact (ih h').cons x
    · exact List.cons_sublist_cons.mpr
        (List.singleton_sublist.mpr ((List.mem_insertionSort jobGE).mp hb))

/-- C3: the ranker's output only contains records with a present score at
or above the threshold, has at most `top_n` elements, is sorted with scores
non-increasing, keeps score ties in original arrival order (stability), and
with a large enough `top_n` is exactly a permutation of the qualifying
records; on the concrete scenario of ten records scoring
`[95, 40, 95, 10, -5, 60, 60, 99, 0, 30]` with threshold 50 and size 3 it
returns the records scoring 99, 95, 95 in that order, the two 95-scorers
in their original relative order. -/
theorem rank_jobs_correct :
    (∀ jobs (m : ℚ) (n : ℕ) (j : Job), j ∈ rank_jobs jobs m n →
      ∃ s, j.score = some s ∧ m ≤ s) ∧
    (∀ jobs (m : ℚ) (n : ℕ), (rank_jobs jobs m n).length ≤ n) ∧
    (∀ jobs (m : ℚ) (n : ℕ), (rank_jobs jobs m n).Sorted jobGE) ∧
    (∀ jobs (m : ℚ) (n : ℕ) (a b : Job), List.Sublist [a, b] (rank_jobs jobs m n) →
      jobKey a = jobKey b → List.Sublist [a, b] jobs) ∧
    (∀ jobs (m : ℚ) (n : ℕ), jobs.length ≤ n →
      List.Perm (rank_jobs jobs m n) (jobs.filter (fun j =>
        match j.score with
        | none => false
        | some s => decide (m ≤ s)))) ∧
    ((rank_jobs scenF 50 3).map (fun j => j.title) = ["j7", "j0", "j2"] ∧
     (rank_jobs scenF 50 3).map (fun j => j.score) = [some 99, some 95, some 95]) := by
  refine ⟨?_, ?_, ?_, ?_, ?_, by decide, by decide⟩
  · intro jobs m n j hj
    have h1 : j ∈ (jobs.filter (fun j =>
        match j.score with
        | none => false
        | some s => decide (m ≤ s))).insertionSort jobGE := List.mem_of_mem_take hj
    have h2 := List.of_mem_filter ((List.mem_insertionSort jobGE).mp h1)
    cases hs : j.score with
    | none => rw [hs] at h2; simp at h2
    | some s =>
      refine ⟨s, rfl, ?_⟩
      rw [hs] at h2
      simpa using h2
  · intro jobs m n
    exact List.length_take_le _ _
  · intro jobs m n
    exact (List.sorted_insertionSort jobGE _).sublist (List.take_sublist _ _)
  · intro jobs m n a b hab htie
    have h1 : List.Sublist [a, b] ((jobs.filter (fun j =>
        match j.score with
        | none => false
        | some s => decide (m ≤ s))).insertionSort jobGE) :=
      hab.trans (List.take_sublist _ _)
    have h2 := pair_sub_insertionSort a b (le_of_eq htie) _ h1
    exact h2.trans (List.filter_sublist _)
  · intro jobs m n hn
    unfold rank_jobs
    rw [List.take_of_length_le]
    · exact List.perm_insertionSort jobGE _
    · rw [List.length_insertionSort]
      exact le_trans (List.length_filter_le _ _) hn

/-- C3 witness: the membership property applied at the concrete scenario,
its membership hypothesis discharged there. -/
theorem rank_jobs_correct_witness :
    ∃ s, (mkScored "j7" (99 : ℚ)).score = some s ∧ (50 : ℚ) ≤ s :=
  rank_jobs_correct.1 scenF 50 3 (mkScored "j7" 99) (by decide)
